import Mathlib

/-!
# logger-go: context-scoped structured logging

A shallow embedding of `context.go`, `logger.go` and `zap/zap_logger.go`.

The repository is a thin layer over three libraries, so the embedding has two kinds of
definitions:

* the functions of the repository itself (`logger.WithContext`, `logger.FromContext`,
  `logger.With`, `logger.SetLogger`, `logger.Info`, `logger.Warn`, `logger.Error`,
  `logger.Debug`, `zap.NewHandler`, `zap.ZapHandler.Enabled`, `zap.ZapHandler.Handle`,
  `zap.ZapHandler.WithAttrs`, `zap.ZapHandler.WithGroup`, `zap.convertSlogLevel`), each
  written statement by statement after its Go body;
* the library operations those bodies call (`context.WithValue`, `Context.Value`,
  `slog.Default`, `slog.SetDefault`, `slog.New`, `(*slog.Logger).With`, `(*slog.Logger).Info`
  and friends, `slog.Record`, `zap.Any`, `(*zap.Logger).With` and the leveled methods of
  `*zap.Logger`), written after the Go standard library (`context`, `log/slog`, Go 1.21+)
  and `go.uber.org/zap`.

Conventions:

* a `*slog.Logger` is an address into the heap of allocated loggers (`Option Nat`, `none`
  being the nil pointer), so that "the same instance" is equality of addresses;
* a Go panic is the result `none` of an operation returning `Option`;
* `slog.Handler` is an interface: the model is generic in the handler type `H` and takes
  the four methods as a record `slog.HandlerImpl H S`, `S` being the state of the sink the
  handlers write to;
* time stamps, program counters and caller frames are not modelled.
-/

set_option autoImplicit false

/-! ## Go values -/

/-- A pointer to an `slog.Logger`: `none` is the nil pointer, `some a` the logger allocated
at address `a`. -/
abbrev LoggerPtr := Option Nat

/-- A Go value of interface type `any`, as far as the logging code distinguishes values:
the untyped nil, strings, integers (all integer types alike), booleans, `*slog.Logger`
pointers, `slog.Attr` values (key and the `Any()` form of the value), `[]slog.Attr`
slices, and any other value (identified by a number). -/
inductive GoAny where
  | nil
  | string (s : String)
  | int (i : Int)
  | bool (b : Bool)
  | loggerPtr (p : LoggerPtr)
  | attr (key : String) (val : GoAny)
  | attrs (as : List (String × GoAny))
  | other (id : Nat)

namespace GoAny

/-- The type assertion `v.(*slog.Logger)` in its two-result form `l, ok := ...`. -/
def assertLogger : GoAny → LoggerPtr × Bool
  | loggerPtr p => (p, true)
  | _ => (none, false)

end GoAny

/-! ## Package `logger`: the context key -/

namespace logger

/-- The key type `type contextKey struct{}` of `context.go`. -/
structure contextKey where
  deriving DecidableEq

/-- The key `var loggerKey = contextKey{}` of `context.go`. -/
def loggerKey : contextKey := {}

end logger

/-! ## Package `context` -/

namespace context

/-- A context key: a value of the private type `logger.contextKey`, or a key of any
other type (identified by a number). Keys of different types are never equal. -/
inductive Key where
  | contextKey (k : logger.contextKey)
  | other (id : Nat)
  deriving DecidableEq

/-- A non-nil `context.Context` seen through its `Value` method: `context.Background()`
or a chain of `context.WithValue` derivations. -/
inductive Context where
  | Background
  | valueCtx (parent : Context) (key : Key) (val : GoAny)

/-- The method `ctx.Value(key)`: the value of the innermost binding of `key`, the
untyped nil when there is none. -/
def Context.Value : Context → Key → GoAny
  | Background, _ => GoAny.nil
  | valueCtx parent k v, key => if key = k then v else parent.Value key

/-- The function `context.WithValue(parent, key, val)`. -/
def WithValue (parent : Context) (key : Key) (val : GoAny) : Context :=
  Context.valueCtx parent key val

end context

/-! ## Package `log/slog` -/

namespace slog

/-- The type `slog.Level` (a Go `int`; only compared, never computed with). -/
abbrev Level := Int

/-- The constant `slog.LevelDebug`. -/
def LevelDebug : Level := -4
/-- The constant `slog.LevelInfo`. -/
def LevelInfo : Level := 0
/-- The constant `slog.LevelWarn`. -/
def LevelWarn : Level := 4
/-- The constant `slog.LevelError`. -/
def LevelError : Level := 8

/-- An `slog.Value`, represented by the Go value its method `Any()` returns. A value of
kind group is one whose `Any()` form is a `[]slog.Attr`. -/
structure Value where
  any : GoAny

/-- The method `v.Any()`. -/
def Value.Any (v : Value) : GoAny := v.any

/-- The method `v.isEmptyGroup()`: a group without attributes. -/
def Value.isEmptyGroup (v : Value) : Bool :=
  match v.any with
  | GoAny.attrs [] => true
  | _ => false

/-- An `slog.Attr`. -/
structure Attr where
  Key : String
  Value : Value

/-- The constant `badKey`. -/
def badKey : String := "!BADKEY"

/-- The function `slog.StringValue`. -/
def StringValue (s : String) : Value := ⟨GoAny.string s⟩

/-- The function `slog.GroupValue(as...)`: it removes the members that are empty groups. -/
def GroupValue (as : List (String × GoAny)) : Value :=
  ⟨GoAny.attrs (as.filter fun a => !(Value.mk a.2).isEmptyGroup)⟩

/-- The function `slog.AnyValue(v)`: a `[]slog.Attr` becomes a group, every other value is
boxed as it is. -/
def AnyValue : GoAny → Value
  | GoAny.attrs as => GroupValue as
  | v => ⟨v⟩

/-- The function `slog.Any(key, value)`. -/
def Any (key : String) (value : GoAny) : Attr := ⟨key, AnyValue value⟩

/-- The function `argsToAttr(args)` on the non-empty argument list `x :: rest`: the first
attribute and the arguments left over. A string is a key and takes the next argument as
its value (`slog.String(badKey, x)` when there is none), an `slog.Attr` stands for itself,
anything else is a value without a key. -/
def argsToAttr (x : GoAny) (rest : List GoAny) : Attr × List GoAny :=
  match x with
  | GoAny.string s =>
    match rest with
    | [] => (⟨badKey, StringValue s⟩, [])
    | v :: rest2 => (Any s v, rest2)
  | GoAny.attr k v => (⟨k, ⟨v⟩⟩, rest)
  | _ => (Any badKey x, rest)

/-- The function `argsToAttrSlice(args)`. -/
def argsToAttrSlice : List GoAny → List Attr
  | [] => []
  | x :: rest => (argsToAttr x rest).1 :: argsToAttrSlice (argsToAttr x rest).2
termination_by args => args.length
decreasing_by
  simp only [List.length_cons]
  unfold argsToAttr
  split
  · split
    · simp
    · simp
      omega
  · simp
  · simp

/-- An `slog.Record` without its time stamp and program counter; `attrs` is the sequence
the method `Attrs` iterates over (the inline array followed by the overflow slice). -/
structure Record where
  Level : Level
  Message : String
  attrs : List Attr

/-- The function `slog.NewRecord(t, level, msg, pc)`. -/
def NewRecord (level : Level) (msg : String) : Record := ⟨level, msg, []⟩

/-- The method `r.NumAttrs()`. -/
def Record.NumAttrs (r : Record) : Nat := r.attrs.length

/-- The method `r.Attrs(f)` for an `f` that always returns true: the attributes in the
order in which `f` is called on them. -/
def Record.Attrs (r : Record) : List Attr := r.attrs

/-- The method `r.Add(args...)`: converts the arguments with `argsToAttr` and appends the
attributes, omitting empty groups. -/
def Record.Add (r : Record) : List GoAny → Record
  | [] => r
  | x :: rest =>
    if (argsToAttr x rest).1.Value.isEmptyGroup then
      Record.Add r (argsToAttr x rest).2
    else
      Record.Add { r with attrs := r.attrs ++ [(argsToAttr x rest).1] } (argsToAttr x rest).2
termination_by args => args.length
decreasing_by
  all_goals
    simp only [List.length_cons]
    unfold argsToAttr
    split
    · split
      · simp
      · simp
        omega
    · simp
    · simp

/-- The struct `slog.Logger`: its handler. -/
structure Logger (H : Type) where
  handler : H

/-- An implementation of the interface `slog.Handler` for handlers of type `H` writing to
a sink of type `S`. `Handle` returns the new sink and the error result (`none` is nil). -/
structure HandlerImpl (H S : Type) where
  Enabled : H → Level → Bool
  Handle : H → Record → S → S × Option String
  WithAttrs : H → List Attr → H
  WithGroup : H → String → H

/-- The state of the process: the heap of allocated loggers (the address of a logger is
its index), the default logger of `log/slog`, the sink the handlers write to, and a log of
the calls of `Handle` made by loggers, oldest first. -/
structure World (H S : Type) where
  loggers : List (Logger H)
  defaultLogger : Nat
  handled : List (H × Record)
  sink : S

variable {H S : Type}

/-- The address of the default logger is allocated. -/
def World.WF (w : World H S) : Prop := w.defaultLogger < w.loggers.length

/-- The function `slog.Default()`. -/
def Default (w : World H S) : LoggerPtr := some w.defaultLogger

/-- Dereferencing a logger pointer; `none` for the nil pointer (a panic in Go). -/
def Logger.deref (w : World H S) (l : LoggerPtr) : Option (Logger H) :=
  match l with
  | none => none
  | some a => w.loggers[a]?

/-- The function `slog.New(h)` for a non-nil handler: allocates a logger. -/
def New (w : World H S) (h : H) : World H S × LoggerPtr :=
  ({ w with loggers := w.loggers ++ [⟨h⟩] }, some w.loggers.length)

/-- The function `slog.SetDefault(l)`: stores `l` as the default logger; it reads the
handler of `l`, so it panics on the nil pointer. The redirection of the output of package
`log` is not modelled. -/
def SetDefault (w : World H S) (l : LoggerPtr) : Option (World H S) :=
  match l, Logger.deref w l with
  | some a, some _ => some { w with defaultLogger := a }
  | _, _ => none

/-- The method `l.With(args...)`: the receiver itself when there are no arguments,
otherwise a clone whose handler is `l.handler.WithAttrs(argsToAttrSlice(args))`. -/
def Logger.With (impl : HandlerImpl H S) (w : World H S) (l : LoggerPtr) (args : List GoAny) :
    Option (World H S × LoggerPtr) :=
  if args.length = 0 then some (w, l)
  else
    match Logger.deref w l with
    | none => none
    | some c =>
      some ({ w with loggers := w.loggers ++ [⟨impl.WithAttrs c.handler (argsToAttrSlice args)⟩] },
        some w.loggers.length)

/-- The method `l.log(ctx, level, msg, args...)`: nothing when the handler is not enabled
at `level`; otherwise one record is built and handed to `Handle`, whose error result is
discarded. -/
def Logger.log (impl : HandlerImpl H S) (w : World H S) (l : LoggerPtr) (level : Level)
    (msg : String) (args : List GoAny) : Option (World H S) :=
  match Logger.deref w l with
  | none => none
  | some lg =>
    if !impl.Enabled lg.handler level then some w
    else
      let r := (NewRecord level msg).Add args
      some { w with
        handled := w.handled ++ [(lg.handler, r)]
        sink := (impl.Handle lg.handler r w.sink).1 }

/-- The method `l.Info(msg, args...)`. -/
def Logger.Info (impl : HandlerImpl H S) (w : World H S) (l : LoggerPtr) (msg : String)
    (args : List GoAny) : Option (World H S) :=
  Logger.log impl w l LevelInfo msg args

/-- The method `l.Warn(msg, args...)`. -/
def Logger.Warn (impl : HandlerImpl H S) (w : World H S) (l : LoggerPtr) (msg : String)
    (args : List GoAny) : Option (World H S) :=
  Logger.log impl w l LevelWarn msg args

/-- The method `l.Error(msg, args...)`. -/
def Logger.Error (impl : HandlerImpl H S) (w : World H S) (l : LoggerPtr) (msg : String)
    (args : List GoAny) : Option (World H S) :=
  Logger.log impl w l LevelError msg args

/-- The method `l.Debug(msg, args...)`. -/
def Logger.Debug (impl : HandlerImpl H S) (w : World H S) (l : LoggerPtr) (msg : String)
    (args : List GoAny) : Option (World H S) :=
  Logger.log impl w l LevelDebug msg args

end slog

/-! ## Package `go.uber.org/zap/zapcore` -/

namespace zapcore

/-- The type `zapcore.Level` (a Go `int8`; only compared, never computed with). -/
abbrev Level := Int

/-- The constant `zapcore.DebugLevel`. -/
def DebugLevel : Level := -1
/-- The constant `zapcore.InfoLevel`. -/
def InfoLevel : Level := 0
/-- The constant `zapcore.WarnLevel`. -/
def WarnLevel : Level := 1
/-- The constant `zapcore.ErrorLevel`. -/
def ErrorLevel : Level := 2

/-- A `zapcore.Field`: its key and the value it was built from. -/
structure Field where
  Key : String
  Interface : GoAny

/-- A `zapcore.Entry` without time stamp, caller and stack. -/
structure Entry where
  Level : Level
  LoggerName : String
  Message : String

/-- A `zapcore.Core` whose level enabler is a minimum level (as built by
`observer.New(level)` or `zapcore.NewCore(enc, ws, level)`), with the fields bound to it. -/
structure Core where
  minLevel : Level
  context : List Field

/-- The method `core.Enabled(lvl)`, that of the level enabler `minLevel`: `lvl >= minLevel`. -/
def Core.Enabled (c : Core) (lvl : Level) : Bool := decide (lvl ≥ c.minLevel)

/-- The method `core.With(fields)`: a core with the fields appended to the bound ones. -/
def Core.With (c : Core) (fields : List Field) : Core :=
  { c with context := c.context ++ fields }

end zapcore

/-! ## Packages `go.uber.org/zap` and `logger-go/zap` -/

namespace zap

/-- The type `zap.Field`. -/
abbrev Field := zapcore.Field

/-- The function `zap.Any(key, value)`: the field with that key, built from that value. -/
def Any (key : String) (value : GoAny) : Field := ⟨key, value⟩

/-- The zero value `zap.Field{}`, with which `make([]zap.Field, n)` fills a slice. -/
def zeroField : Field := ⟨"", GoAny.nil⟩

/-- A `zap.Logger`: its core, its name and the number of caller frames it skips. -/
structure Logger where
  core : zapcore.Core
  name : String
  callerSkip : Int

/-- An entry as the sink receives it (`observer.LoggedEntry`): the entry and all its
fields, those bound to the core first. -/
structure LoggedEntry where
  Entry : zapcore.Entry
  Context : List Field

/-- A call of a leveled method of a `zap.Logger`: the level of the method, the message and
the fields passed. -/
structure Call where
  Level : zapcore.Level
  Message : String
  Fields : List Field

/-- The state of the backend: the leveled calls made on zap loggers and the entries
their cores have written, both oldest first. -/
structure Backend where
  calls : List Call
  entries : List LoggedEntry

/-- The method `log.Core()`. -/
def Logger.Core (log : Logger) : zapcore.Core := log.core

/-- The option `zap.AddCallerSkip(skip)`. -/
def AddCallerSkip (skip : Int) : Logger → Logger :=
  fun log => { log with callerSkip := log.callerSkip + skip }

/-- The method `log.WithOptions(opts...)`: a clone with the options applied in order. -/
def Logger.WithOptions (log : Logger) (opts : List (Logger → Logger)) : Logger :=
  opts.foldl (fun c opt => opt c) log

/-- The method `log.With(fields...)`: the receiver when there are no fields, otherwise a
clone whose core is `log.core.With(fields)`. -/
def Logger.With (log : Logger) (fields : List Field) : Logger :=
  if fields.length = 0 then log
  else { log with core := log.core.With fields }

/-- The method `log.Named(s)`: the receiver when `s` is empty, otherwise a clone whose name
is `s`, joined to the old name by a period when there is one. -/
def Logger.Named (log : Logger) (s : String) : Logger :=
  if s = "" then log
  else if log.name = "" then { log with name := s }
  else { log with name := log.name ++ "." ++ s }

/-- The common body of the leveled methods for a level below `DPanicLevel`: the entry is
checked against the core and, when the core is enabled at `lvl`, written with the fields
bound to the core followed by `fields`. -/
def Logger.log (log : Logger) (lvl : zapcore.Level) (msg : String) (fields : List Field)
    (b : Backend) : Backend :=
  let b1 : Backend := { b with calls := b.calls ++ [⟨lvl, msg, fields⟩] }
  if log.core.Enabled lvl then
    { b1 with entries := b1.entries ++ [⟨⟨lvl, log.name, msg⟩, log.core.context ++ fields⟩] }
  else b1

/-- The method `log.Debug(msg, fields...)`. -/
def Logger.Debug (log : Logger) (msg : String) (fields : List Field) (b : Backend) : Backend :=
  log.log zapcore.DebugLevel msg fields b

/-- The method `log.Info(msg, fields...)`. -/
def Logger.Info (log : Logger) (msg : String) (fields : List Field) (b : Backend) : Backend :=
  log.log zapcore.InfoLevel msg fields b

/-- The method `log.Warn(msg, fields...)`. -/
def Logger.Warn (log : Logger) (msg : String) (fields : List Field) (b : Backend) : Backend :=
  log.log zapcore.WarnLevel msg fields b

/-- The method `log.Error(msg, fields...)`. -/
def Logger.Error (log : Logger) (msg : String) (fields : List Field) (b : Backend) : Backend :=
  log.log zapcore.ErrorLevel msg fields b

/-- The struct `ZapHandler` of `zap/zap_logger.go`. -/
structure ZapHandler where
  logger : Logger

/-- The function `NewHandler` of `zap/zap_logger.go`. -/
def NewHandler (logger : Logger) : ZapHandler :=
  let l := logger.WithOptions [AddCallerSkip 4]
  ⟨l⟩

/-- The function `convertSlogLevel` of `zap/zap_logger.go`. -/
def convertSlogLevel (l : slog.Level) : zapcore.Level :=
  if l ≥ slog.LevelError then zapcore.ErrorLevel
  else if l ≥ slog.LevelWarn then zapcore.WarnLevel
  else if l ≥ slog.LevelInfo then zapcore.InfoLevel
  else zapcore.DebugLevel

/-- The method `(*ZapHandler).Enabled` of `zap/zap_logger.go`. -/
def ZapHandler.Enabled (h : ZapHandler) (level : slog.Level) : Bool :=
  h.logger.Core.Enabled (convertSlogLevel level)

/-- The method `(*ZapHandler).Handle` of `zap/zap_logger.go`: the fields are collected by
appending one `zap.Any` per attribute, then the switch on `r.Level` picks the leveled
method; the result is the new backend state and the nil error. -/
def ZapHandler.Handle (h : ZapHandler) (r : slog.Record) (b : Backend) :
    Backend × Option String :=
  let fields : List Field :=
    r.Attrs.foldl (fun fields a => fields ++ [Any a.Key a.Value.Any]) []
  let b1 :=
    if r.Level = slog.LevelDebug then h.logger.Debug r.Message fields b
    else if r.Level = slog.LevelInfo then h.logger.Info r.Message fields b
    else if r.Level = slog.LevelWarn then h.logger.Warn r.Message fields b
    else if r.Level = slog.LevelError then h.logger.Error r.Message fields b
    else h.logger.Info r.Message fields b
  (b1, none)

/-- The method `(*ZapHandler).WithAttrs` of `zap/zap_logger.go`: a slice of `len(attrs)`
zero fields is filled index by index, then bound to a new logger. -/
def ZapHandler.WithAttrs (h : ZapHandler) (attrs : List slog.Attr) : ZapHandler :=
  let fields : List Field :=
    attrs.enum.foldl (fun fields ia => fields.set ia.1 (Any ia.2.Key ia.2.Value.Any))
      (List.replicate attrs.length zeroField)
  let newLogger := h.logger.With fields
  ⟨newLogger⟩

/-- The method `(*ZapHandler).WithGroup` of `zap/zap_logger.go`. -/
def ZapHandler.WithGroup (h : ZapHandler) (name : String) : ZapHandler :=
  let newLogger := h.logger.Named name
  ⟨newLogger⟩

/-- The declaration `var _ slog.Handler = (*ZapHandler)(nil)`: `*ZapHandler` implements
`slog.Handler`, its sink being the zap backend. -/
def handlerImpl : slog.HandlerImpl ZapHandler Backend where
  Enabled := ZapHandler.Enabled
  Handle := ZapHandler.Handle
  WithAttrs := ZapHandler.WithAttrs
  WithGroup := ZapHandler.WithGroup

end zap

/-! ## Package `logger` -/

namespace logger

open context slog

variable {H S : Type}

/-- The function `WithContext` of `context.go`. -/
def WithContext (ctx : Context) (l : LoggerPtr) : Context :=
  context.WithValue ctx (Key.contextKey loggerKey) (GoAny.loggerPtr l)

/-- The function `FromContext` of `context.go`. -/
def FromContext (w : World H S) (ctx : Context) : LoggerPtr :=
  match (ctx.Value (Key.contextKey loggerKey)).assertLogger with
  | (l, ok) => if !ok then slog.Default w else l

/-- The function `With` of `context.go`: the new state and the new context, `none` when
the call panics. -/
def With (impl : HandlerImpl H S) (w : World H S) (ctx : Context) (args : List GoAny) :
    Option (World H S × Context) :=
  match slog.Logger.With impl w (FromContext w ctx) args with
  | none => none
  | some (w1, l) => some (w1, WithContext ctx l)

/-- The function `SetLogger` of `logger.go`: the new state and the new context. -/
def SetLogger (w : World H S) (ctx : Context) (l : H) : Option (World H S × Context) :=
  match slog.SetDefault (slog.New w l).1 (slog.New w l).2 with
  | none => none
  | some w1 => some (w1, WithContext ctx (slog.Default w1))

/-- The function `Info` of `logger.go`: the new state, `none` when the call panics. -/
def Info (impl : HandlerImpl H S) (w : World H S) (ctx : Context) (msg : String)
    (attrs : List GoAny) : Option (World H S) :=
  slog.Logger.Info impl w (FromContext w ctx) msg attrs

/-- The function `Warn` of `logger.go`. -/
def Warn (impl : HandlerImpl H S) (w : World H S) (ctx : Context) (msg : String)
    (attrs : List GoAny) : Option (World H S) :=
  slog.Logger.Warn impl w (FromContext w ctx) msg attrs

/-- The function `Error` of `logger.go`. -/
def Error (impl : HandlerImpl H S) (w : World H S) (ctx : Context) (msg : String)
    (attrs : List GoAny) : Option (World H S) :=
  slog.Logger.Error impl w (FromContext w ctx) msg attrs

/-- The function `Debug` of `logger.go`. -/
def Debug (impl : HandlerImpl H S) (w : World H S) (ctx : Context) (msg : String)
    (attrs : List GoAny) : Option (World H S) :=
  slog.Logger.Debug impl w (FromContext w ctx) msg attrs

end logger

/-! ## Sample states -/

namespace sample

/-- The context of the test "with wrong type in context": a string under the logger key. -/
def stringCtx : context.Context :=
  context.WithValue context.Context.Background (context.Key.contextKey logger.loggerKey)
    (GoAny.string "not a logger")

/-- A zap logger whose core accepts every level from `DebugLevel` on and has no fields
bound (as built by `zap.New(core)` over `observer.New(zapcore.DebugLevel)`). -/
def zapLogger : zap.Logger := ⟨⟨zapcore.DebugLevel, []⟩, "", 0⟩

/-- The handler `NewHandler(zapLogger)`. -/
def handler : zap.ZapHandler := zap.NewHandler zapLogger

/-- A state with one logger, the default one, wrapping `handler`; nothing logged yet. -/
def world : slog.World zap.ZapHandler zap.Backend :=
  ⟨[⟨handler⟩], 0, [], ⟨[], []⟩⟩


/-- The background context with the default logger of `world` (address 0) bound by
`WithContext`. -/
def boundCtx : context.Context :=
  logger.WithContext context.Context.Background (some 0)

/-- The background context with the nil `*slog.Logger` bound by `WithContext`. -/
def nilCtx : context.Context :=
  logger.WithContext context.Context.Background none

/-- The arguments of the tests of `logger_test.go`: one key with a string value. -/
def pairs : List (String × GoAny) := [("key", GoAny.string "value")]

/-- A key whose value is an empty `[]slog.Attr`, which `log/slog` boxes as an empty group. -/
def emptyGroupArgs : List GoAny := [GoAny.string "k", GoAny.attrs []]

/-- A zap logger whose core accepts the levels from `minLevel` on and has no fields bound
(as built by `zap.New(core)` over `observer.New(minLevel)`). -/
def zapLoggerAt (minLevel : zapcore.Level) : zap.Logger := ⟨⟨minLevel, []⟩, "", 0⟩

/-- The handler of `TestZapHandler_Enabled`: `NewHandler` over a core at `InfoLevel`. -/
def infoHandler : zap.ZapHandler := zap.NewHandler (zapLoggerAt zapcore.InfoLevel)

/-- The handler `NewHandler` over a core at `ErrorLevel`. -/
def errorHandler : zap.ZapHandler := zap.NewHandler (zapLoggerAt zapcore.ErrorLevel)

end sample

/-! ## Facts about the library operations -/

open context slog logger

/-- Appending one image per element, from left to right, is mapping. -/
theorem foldl_append_singleton {α β : Type} (f : α → β) (l : List α) (acc : List β) :
    l.foldl (fun fields a => fields ++ [f a]) acc = acc ++ l.map f := by
  induction l generalizing acc with
  | nil => simp
  | cons x xs ih => simp [ih]

/-- Filling a slice of zero values index by index, in the order of the indices, is mapping. -/
theorem foldl_set_enumFrom {α β : Type} (f : α → β) (z : β) (l : List α) (pre : List β) :
    (l.enumFrom pre.length).foldl (fun fields ia => fields.set ia.1 (f ia.2))
      (pre ++ List.replicate l.length z) = pre ++ l.map f := by
  induction l generalizing pre with
  | nil => simp
  | cons x xs ih =>
    have h := ih (pre ++ [f x])
    simp only [List.length_append, List.length_singleton, List.append_assoc,
      List.singleton_append] at h
    simp only [List.enumFrom_cons, List.foldl_cons, List.length_cons, List.replicate_succ,
      List.map_cons]
    rw [List.set_append_right _ _ (Nat.le_refl _)]
    simpa using h

/-- The slice built by the loop of `WithAttrs` is one `zap.Any` per attribute, in order. -/
theorem WithAttrs_fields (attrs : List Attr) :
    attrs.enum.foldl (fun fields ia => fields.set ia.1 (zap.Any ia.2.Key ia.2.Value.Any))
      (List.replicate attrs.length zap.zeroField)
    = attrs.map fun a => zap.Any a.Key a.Value.Any := by
  have h := foldl_set_enumFrom (fun a : Attr => zap.Any a.Key a.Value.Any) zap.zeroField attrs []
  simpa [List.enum] using h

/-- The slice built by the iteration of `Handle` is one `zap.Any` per attribute, in order. -/
theorem Handle_fields (r : Record) :
    r.Attrs.foldl (fun fields a => fields ++ [zap.Any a.Key a.Value.Any]) ([] : List zap.Field)
    = r.Attrs.map fun a => zap.Any a.Key a.Value.Any := by
  simpa using foldl_append_singleton (fun a : Attr => zap.Any a.Key a.Value.Any) r.Attrs []

/-- The method `Handle` makes one leveled call: the level is decided by exact matches of
`r.Level` with the four named levels, every other level falling to `Info`. -/
theorem Handle_eq (h : zap.ZapHandler) (r : Record) (b : zap.Backend) :
    zap.ZapHandler.Handle h r b
      = (h.logger.log
          (if r.Level = -4 then zapcore.DebugLevel
           else if r.Level = 0 then zapcore.InfoLevel
           else if r.Level = 4 then zapcore.WarnLevel
           else if r.Level = 8 then zapcore.ErrorLevel
           else zapcore.InfoLevel)
          r.Message (r.Attrs.map fun a => zap.Any a.Key a.Value.Any) b, none) := by
  unfold zap.ZapHandler.Handle
  rw [Handle_fields]
  simp only [slog.LevelDebug, slog.LevelInfo, slog.LevelWarn, slog.LevelError,
    zap.Logger.Debug, zap.Logger.Info, zap.Logger.Warn, zap.Logger.Error]
  split_ifs <;> rfl

/-- The method `Add` on the flat argument list of a list of key/value pairs (each string
key followed by its value): one attribute per pair, in order, except for the pairs whose
value is an empty group. -/
theorem Add_pairs (kvs : List (String × GoAny)) (r : Record) :
    (r.Add (kvs.flatMap fun kv => [GoAny.string kv.1, kv.2]))
      = { r with attrs := r.attrs ++
            ((kvs.filter fun kv => !(slog.AnyValue kv.2).isEmptyGroup).map
              fun kv => slog.Any kv.1 kv.2) } := by
  induction kvs generalizing r with
  | nil => simp [Record.Add]
  | cons kv rest ih =>
    simp only [List.flatMap_cons, List.cons_append, List.nil_append]
    rw [Record.Add]
    simp only [argsToAttr]
    by_cases he : (slog.AnyValue kv.2).isEmptyGroup = true
    · simp [he, ih, slog.Any]
    · simp [he, ih, slog.Any]

/-- The logger allocated last is at the address equal to the old size of the heap. -/
theorem getElem?_append_length {α : Type} (l : List α) (x : α) :
    (l ++ [x])[l.length]? = some x := by
  simp

/-- An allocation leaves the loggers allocated before where they are. -/
theorem getElem?_append_of_some {α : Type} (l : List α) (x y : α) (a : Nat)
    (h : l[a]? = some y) : (l ++ [x])[a]? = some y := by
  have hlt : a < l.length := by
    by_contra hge
    rw [List.getElem?_eq_none (Nat.le_of_not_lt hge)] at h
    exact absurd h (by simp)
  rw [List.getElem?_append_left hlt]
  exact h

/-- An address that holds a logger is below the size of the heap. -/
theorem lt_length_of_getElem? {α : Type} (l : List α) (y : α) (a : Nat)
    (h : l[a]? = some y) : a < l.length := by
  by_contra hge
  rw [List.getElem?_eq_none (Nat.le_of_not_lt hge)] at h
  exact absurd h (by simp)

/-- The function `SetLogger` never panics: it allocates a logger wrapping the handler,
makes it the default logger and binds it in the context. -/
theorem SetLogger_eq {H S : Type} (w : World H S) (ctx : Context) (h : H) :
    SetLogger w ctx h
      = some ({ w with loggers := w.loggers ++ [⟨h⟩], defaultLogger := w.loggers.length },
          WithContext ctx (some w.loggers.length)) := by
  simp [SetLogger, slog.New, slog.SetDefault, slog.Logger.deref, slog.Default]

/-- The method `log` on a logger whose handler is enabled at the level. -/
theorem log_enabled {H S : Type} (impl : HandlerImpl H S) (w : World H S) (l : LoggerPtr)
    (lg : slog.Logger H) (level : Level) (msg : String) (args : List GoAny)
    (hl : slog.Logger.deref w l = some lg) (hen : impl.Enabled lg.handler level = true) :
    slog.Logger.log impl w l level msg args
      = some { w with
          handled := w.handled ++ [(lg.handler, (NewRecord level msg).Add args)]
          sink := (impl.Handle lg.handler ((NewRecord level msg).Add args) w.sink).1 } := by
  simp [slog.Logger.log, hl, hen]

/-- The lookup after a binding returns the bound pointer. -/
theorem FromContext_WithContext {H S : Type} (w : World H S) (ctx : Context)
    (l : LoggerPtr) : FromContext w (WithContext ctx l) = l := by
  simp [FromContext, WithContext, context.WithValue, Context.Value, GoAny.assertLogger]

/-- The sample handler, whose core accepts `DebugLevel`, is enabled at every level. -/
theorem sample_handler_enabled (level : Level) :
    zap.handlerImpl.Enabled sample.handler level = true := by
  simp only [zap.handlerImpl, zap.ZapHandler.Enabled, zap.Logger.Core, zapcore.Core.Enabled,
    sample.handler, zap.NewHandler, zap.Logger.WithOptions, zap.AddCallerSkip,
    sample.zapLogger, List.foldl, zap.convertSlogLevel, zapcore.DebugLevel,
    zapcore.InfoLevel, zapcore.WarnLevel, zapcore.ErrorLevel, decide_eq_true_eq]
  unfold zapcore.Level
  split_ifs <;> omega

/-- The method `log` returns on every allocated logger. -/
theorem log_isSome {H S : Type} (impl : HandlerImpl H S) (w : World H S) (l : LoggerPtr)
    (lg : slog.Logger H) (level : Level) (msg : String) (args : List GoAny)
    (hl : slog.Logger.deref w l = some lg) :
    (slog.Logger.log impl w l level msg args).isSome = true := by
  unfold slog.Logger.log
  rw [hl]
  by_cases hen : impl.Enabled lg.handler level = true <;> simp [hen]

/-- In a well-formed state, a context whose logger key holds no nil and no dangling logger
pointer yields an allocated logger. -/
theorem FromContext_allocated {H S : Type} (w : World H S) (ctx : Context) (hw : w.WF)
    (hptr : ∀ p, ctx.Value (Key.contextKey loggerKey) = GoAny.loggerPtr p →
      ∃ a, p = some a ∧ a < w.loggers.length) :
    ∃ lg, slog.Logger.deref w (FromContext w ctx) = some lg := by
  unfold FromContext
  cases hv : ctx.Value (Key.contextKey loggerKey) with
  | loggerPtr p =>
    obtain ⟨a, rfl, ha⟩ := hptr p hv
    exact ⟨w.loggers[a], by simp [GoAny.assertLogger, slog.Logger.deref, ha]⟩
  | _ =>
    exact ⟨w.loggers.get ⟨w.defaultLogger, hw⟩, by
      simp [GoAny.assertLogger, slog.Logger.deref, slog.Default, List.getElem?_eq_getElem hw]⟩

/-- A value that is not a `[]slog.Attr` is boxed and unboxed unchanged. -/
theorem AnyValue_Any (v : GoAny) (hv : ∀ as, v ≠ GoAny.attrs as) : (AnyValue v).Any = v := by
  cases v <;> first | rfl | exact absurd rfl (hv _)

/-- One key/value pair is converted to one attribute. -/
theorem argsToAttrSlice_pair (k : String) (v : GoAny) :
    argsToAttrSlice [GoAny.string k, v] = [slog.Any k v] := by
  simp [argsToAttrSlice, argsToAttr]

/-- The function `With` on one key/value pair, for a logger wrapping a `ZapHandler`: the new
logger wraps a handler whose zap logger has the field of the pair bound after the fields
already bound. -/
theorem With_zap_pair (w : World zap.ZapHandler zap.Backend) (ctx : Context) (a : Nat)
    (h : zap.ZapHandler) (k : String) (v : GoAny)
    (hctx : FromContext w ctx = some a) (hL : w.loggers[a]? = some ⟨h⟩) :
    logger.With zap.handlerImpl w ctx [GoAny.string k, v]
      = some ({ w with loggers := w.loggers ++
            [⟨⟨{ h.logger with core :=
              { h.logger.core with context :=
                  h.logger.core.context ++ [zap.Any k (AnyValue v).Any] } }⟩⟩] },
          WithContext ctx (some w.loggers.length)) := by
  have hfields := WithAttrs_fields [slog.Any k v]
  simp only [List.length_singleton] at hfields
  simp [logger.With, slog.Logger.With, hctx, slog.Logger.deref, hL, argsToAttrSlice_pair,
    zap.handlerImpl, zap.ZapHandler.WithAttrs, hfields, zap.Logger.With, zapcore.Core.With,
    slog.Any]

/-- The function `Debug` on one key/value pair whose value is not an empty group, for a
logger wrapping a `ZapHandler` whose core is enabled at `DebugLevel`: one call of the zap
method `Debug` and one entry, with the fields bound to the core followed by the field of
the pair. -/
theorem Debug_zap_pair (w : World zap.ZapHandler zap.Backend) (ctx : Context) (a : Nat)
    (h : zap.ZapHandler) (msg k : String) (v : GoAny)
    (hctx : FromContext w ctx = some a) (hL : w.loggers[a]? = some ⟨h⟩)
    (hen : h.logger.core.Enabled zapcore.DebugLevel = true)
    (hv : (AnyValue v).isEmptyGroup = false) :
    logger.Debug zap.handlerImpl w ctx msg [GoAny.string k, v]
      = some { w with
          handled := w.handled ++ [(h, ⟨-4, msg, [slog.Any k v]⟩)]
          sink := ⟨w.sink.calls ++ [⟨zapcore.DebugLevel, msg, [zap.Any k (AnyValue v).Any]⟩],
            w.sink.entries ++ [⟨⟨zapcore.DebugLevel, h.logger.name, msg⟩,
              h.logger.core.context ++ [zap.Any k (AnyValue v).Any]⟩]⟩ } := by
  have hderef : slog.Logger.deref w (FromContext w ctx) = some ⟨h⟩ := by
    simp [hctx, slog.Logger.deref, hL]
  have henabled : zap.handlerImpl.Enabled (slog.Logger.mk h).handler slog.LevelDebug = true := by
    have hc : zap.convertSlogLevel slog.LevelDebug = zapcore.DebugLevel := by decide
    simp only [zap.handlerImpl, zap.ZapHandler.Enabled, zap.Logger.Core, hc]
    exact hen
  have hadd : (NewRecord slog.LevelDebug msg).Add [GoAny.string k, v]
      = ⟨-4, msg, [slog.Any k v]⟩ := by
    have h1 := Add_pairs [(k, v)] (NewRecord slog.LevelDebug msg)
    simp only [List.flatMap_cons, List.flatMap_nil, List.append_nil] at h1
    rw [h1]
    simp [NewRecord, hv, slog.LevelDebug]
  unfold logger.Debug slog.Logger.Debug
  rw [log_enabled zap.handlerImpl w _ ⟨h⟩ _ msg _ hderef henabled, hadd]
  have hhandle := Handle_eq h ⟨-4, msg, [slog.Any k v]⟩ w.sink
  simp only [zap.handlerImpl]
  rw [hhandle]
  simp [zap.Logger.log, hen, Record.Attrs, slog.Any]

/-- The lookup falls back to the default logger when the logger key holds no
`*slog.Logger`. -/
theorem FromContext_default {H S : Type} (w : World H S) (ctx : Context)
    (h : ∀ p, ctx.Value (Key.contextKey loggerKey) ≠ GoAny.loggerPtr p) :
    FromContext w ctx = slog.Default w := by
  unfold FromContext
  cases hv : ctx.Value (Key.contextKey loggerKey) <;>
    first
      | exact absurd hv (h _)
      | simp [GoAny.assertLogger]

/-! ## Context binding -/

/-- C1: for every context `ctx`, every state and every logger pointer `l` (the nil pointer
included), `FromContext(WithContext(ctx, l))` is `l` itself, whatever `ctx` held before. -/
theorem C1_FromContext_WithContext {H S : Type} (w : World H S) (ctx : Context) (l : LoggerPtr) :
    FromContext w (WithContext ctx l) = l := by
  unfold FromContext WithContext context.WithValue
  simp [Context.Value, GoAny.assertLogger]

/-- C2: for every context whose value under the logger key is not a `*slog.Logger` (the key
is unbound, or bound to a value of another type), `FromContext` returns the current default
logger, the one `slog.Default()` returns in that state, which is a non-nil pointer. -/
theorem C2_FromContext_default {H S : Type} (w : World H S) (ctx : Context)
    (h : ∀ p, ctx.Value (Key.contextKey loggerKey) ≠ GoAny.loggerPtr p) :
    FromContext w ctx = slog.Default w ∧ FromContext w ctx ≠ none := by
  have key : FromContext w ctx = slog.Default w := FromContext_default w ctx h
  exact ⟨key, by simp [key, slog.Default]⟩

/-- C2 at the context of the test with a string under the logger key. -/
theorem C2_FromContext_default_witness :
    (∀ p, sample.stringCtx.Value (Key.contextKey loggerKey) ≠ GoAny.loggerPtr p) ∧
    (FromContext sample.world sample.stringCtx = slog.Default sample.world ∧
      FromContext sample.world sample.stringCtx ≠ none) :=
  ⟨by intro p; simp [sample.stringCtx, context.WithValue, Context.Value],
   C2_FromContext_default sample.world sample.stringCtx
    (by intro p; simp [sample.stringCtx, context.WithValue, Context.Value])⟩

/-! ## Level mapping -/

/-- C3: the code breaks the claim. Over a core that accepts every level, `Handle` emits
the records at the levels 100, 50, 9, 5 and -1 at backend `Info` (one call of `Info`, one
entry at `InfoLevel`), while the inclusive-lower-bound policy `convertSlogLevel` gives
`Error`, `Error`, `Error`, `Warn` and `Debug` for them. -/
theorem C3_Handle_level_divergence :
    ((zap.ZapHandler.Handle sample.handler ⟨100, "msg", []⟩ ⟨[], []⟩).1.calls.map
        zap.Call.Level = [zapcore.InfoLevel]) ∧
    ((zap.ZapHandler.Handle sample.handler ⟨100, "msg", []⟩ ⟨[], []⟩).1.entries.map
        (fun e => e.Entry.Level) = [zapcore.InfoLevel]) ∧
    zap.convertSlogLevel 100 = zapcore.ErrorLevel ∧
    ((zap.ZapHandler.Handle sample.handler ⟨50, "custom level message", []⟩ ⟨[], []⟩).1.calls.map
        zap.Call.Level = [zapcore.InfoLevel]) ∧
    zap.convertSlogLevel 50 = zapcore.ErrorLevel ∧
    ((zap.ZapHandler.Handle sample.handler ⟨9, "msg", []⟩ ⟨[], []⟩).1.calls.map
        zap.Call.Level = [zapcore.InfoLevel]) ∧
    zap.convertSlogLevel 9 = zapcore.ErrorLevel ∧
    ((zap.ZapHandler.Handle sample.handler ⟨5, "msg", []⟩ ⟨[], []⟩).1.calls.map
        zap.Call.Level = [zapcore.InfoLevel]) ∧
    zap.convertSlogLevel 5 = zapcore.WarnLevel ∧
    ((zap.ZapHandler.Handle sample.handler ⟨-1, "msg", []⟩ ⟨[], []⟩).1.calls.map
        zap.Call.Level = [zapcore.InfoLevel]) ∧
    zap.convertSlogLevel (-1) = zapcore.DebugLevel ∧
    zapcore.InfoLevel ≠ zapcore.ErrorLevel ∧
    zapcore.InfoLevel ≠ zapcore.WarnLevel ∧
    zapcore.InfoLevel ≠ zapcore.DebugLevel := by
  decide

/-- The level at which `Handle` emits, for every record `r`: one leveled call, at backend
`Debug`, `Info`, `Warn`, `Error` when `r.Level` is exactly -4, 0, 4, 8, and at backend `Info`
when the switch falls to its default; the entry is written at that level when the core is
enabled at it. That level is the level `convertSlogLevel(r.Level)` of the threshold policy
exactly when `r.Level` is -4, 8 or lies in 0..4. -/
theorem Handle_level (h : zap.ZapHandler) (r : Record) (b : zap.Backend) :
    ∃ (lvl : zapcore.Level) (fields : List zap.Field),
      lvl = (if r.Level = -4 then zapcore.DebugLevel
             else if r.Level = 0 then zapcore.InfoLevel
             else if r.Level = 4 then zapcore.WarnLevel
             else if r.Level = 8 then zapcore.ErrorLevel
             else zapcore.InfoLevel) ∧
      (lvl = zap.convertSlogLevel r.Level ↔
        r.Level = -4 ∨ (0 ≤ r.Level ∧ r.Level ≤ 4) ∨ r.Level = 8) ∧
      (zap.ZapHandler.Handle h r b).1.calls = b.calls ++ [⟨lvl, r.Message, fields⟩] ∧
      (zap.ZapHandler.Handle h r b).1.entries = b.entries ++
        (if h.logger.core.Enabled lvl
         then [⟨⟨lvl, h.logger.name, r.Message⟩, h.logger.core.context ++ fields⟩]
         else []) := by
  refine ⟨_, r.Attrs.map fun a => zap.Any a.Key a.Value.Any, rfl, ?_, ?_, ?_⟩
  · simp only [zap.convertSlogLevel, slog.LevelError, slog.LevelWarn, slog.LevelInfo,
      zapcore.DebugLevel, zapcore.InfoLevel, zapcore.WarnLevel, zapcore.ErrorLevel]
    unfold slog.Level zapcore.Level at *
    split_ifs <;> simp_all <;> omega
  · rw [Handle_eq]
    simp only [zap.Logger.log]
    split_ifs <;> rfl
  · rw [Handle_eq]
    simp only [zap.Logger.log]
    split_ifs <;> simp

/-- C4: for every integer level `l`, `convertSlogLevel(l)` is `ErrorLevel` iff `l >= 8`,
`WarnLevel` iff `4 <= l < 8`, `InfoLevel` iff `0 <= l < 4` and `DebugLevel` iff `l < 0`;
level 0 maps to `Info`, level -1 to `Debug`, the levels 1, 2, 3 between `Info` and `Warn` to
`Info`, and level 100 to `Error`. -/
theorem C4_convertSlogLevel (l : slog.Level) :
    (zap.convertSlogLevel l = zapcore.ErrorLevel ↔ l ≥ 8) ∧
    (zap.convertSlogLevel l = zapcore.WarnLevel ↔ 4 ≤ l ∧ l < 8) ∧
    (zap.convertSlogLevel l = zapcore.InfoLevel ↔ 0 ≤ l ∧ l < 4) ∧
    (zap.convertSlogLevel l = zapcore.DebugLevel ↔ l < 0) ∧
    zap.convertSlogLevel 0 = zapcore.InfoLevel ∧
    zap.convertSlogLevel (-1) = zapcore.DebugLevel ∧
    zap.convertSlogLevel 1 = zapcore.InfoLevel ∧
    zap.convertSlogLevel 2 = zapcore.InfoLevel ∧
    zap.convertSlogLevel 3 = zapcore.InfoLevel ∧
    zap.convertSlogLevel 100 = zapcore.ErrorLevel := by
  refine ⟨?_, ?_, ?_, ?_, by decide, by decide, by decide, by decide, by decide, by decide⟩ <;>
  · simp only [zap.convertSlogLevel, slog.LevelError, slog.LevelWarn, slog.LevelInfo,
      zapcore.DebugLevel, zapcore.InfoLevel, zapcore.WarnLevel, zapcore.ErrorLevel]
    unfold slog.Level zapcore.Level at *
    split_ifs <;> simp_all <;> omega

/-! ## Leveled logging -/

/-- C5, as stated, fails: after `SetLogger(context.Background(), H)`, with `H` enabled at
every level, `Info(ctx, "hello", "k", []slog.Attr{})` has an argument list of length 2, yet
the one record `H` receives carries no attribute (the empty group is omitted). -/
theorem C5_leveled_calls_counterexample :
    (∀ level, zap.handlerImpl.Enabled sample.handler level = true) ∧
    sample.emptyGroupArgs.length / 2 = 1 ∧
    ((SetLogger sample.world Context.Background sample.handler).bind fun p =>
        (logger.Info zap.handlerImpl p.1 p.2 "hello" sample.emptyGroupArgs).map fun w2 =>
          w2.handled.map fun hr => hr.2.NumAttrs) = some [0] := by
  refine ⟨sample_handler_enabled, by decide, ?_⟩
  · rw [SetLogger_eq]
    simp [logger.Info, slog.Logger.Info, slog.Logger.log, slog.Logger.deref, FromContext,
      WithContext, context.WithValue, Context.Value, GoAny.assertLogger, sample.world,
      sample.emptyGroupArgs, Record.Add, argsToAttr, slog.Any, AnyValue, GroupValue,
      Value.isEmptyGroup, NewRecord, Record.NumAttrs, zap.handlerImpl, zap.ZapHandler.Enabled,
      zap.Logger.Core, zapcore.Core.Enabled, sample.handler, zap.NewHandler,
      zap.Logger.WithOptions, zap.AddCallerSkip, sample.zapLogger, zap.convertSlogLevel,
      slog.LevelInfo, slog.LevelError, slog.LevelWarn, zapcore.DebugLevel, zapcore.InfoLevel]

/-- C5, amended: for every handler `h` enabled at every level, every message `m` and every
argument list `args` alternating string keys and values, after `SetLogger` on the background
context each of `Info`, `Warn`, `Error`, `Debug` returns and makes exactly one call of
`h.Handle`, with a record whose message is `m`, whose level is 0, 4, 8, -4 respectively, and
whose attributes are one per key/value pair, in order, except for the pairs whose value is
an empty group; so the record carries exactly `len(args)/2` attributes when no value is an
empty group (none when `args` is empty). -/
theorem C5_leveled_calls {H S : Type} (impl : HandlerImpl H S) (w : World H S) (h : H)
    (m : String) (kvs : List (String × GoAny))
    (hen : ∀ level, impl.Enabled h level = true) :
    ∃ (w1 : World H S) (ctx : Context) (args : List GoAny) (attrs : List Attr),
      SetLogger w Context.Background h = some (w1, ctx) ∧
      args = (kvs.flatMap fun kv => [GoAny.string kv.1, kv.2]) ∧
      attrs = ((kvs.filter fun kv => !(AnyValue kv.2).isEmptyGroup).map
        fun kv => slog.Any kv.1 kv.2) ∧
      ((kvs.all fun kv => !(AnyValue kv.2).isEmptyGroup) = true →
        attrs.length = args.length / 2) ∧
      (args = [] → attrs.length = 0) ∧
      logger.Info impl w1 ctx m args = some { w1 with
        handled := w1.handled ++ [(h, ⟨0, m, attrs⟩)]
        sink := (impl.Handle h ⟨0, m, attrs⟩ w1.sink).1 } ∧
      logger.Warn impl w1 ctx m args = some { w1 with
        handled := w1.handled ++ [(h, ⟨4, m, attrs⟩)]
        sink := (impl.Handle h ⟨4, m, attrs⟩ w1.sink).1 } ∧
      logger.Error impl w1 ctx m args = some { w1 with
        handled := w1.handled ++ [(h, ⟨8, m, attrs⟩)]
        sink := (impl.Handle h ⟨8, m, attrs⟩ w1.sink).1 } ∧
      logger.Debug impl w1 ctx m args = some { w1 with
        handled := w1.handled ++ [(h, ⟨-4, m, attrs⟩)]
        sink := (impl.Handle h ⟨-4, m, attrs⟩ w1.sink).1 } := by
  have hderef : slog.Logger.deref
      ({ w with loggers := w.loggers ++ [⟨h⟩], defaultLogger := w.loggers.length } : World H S)
      (FromContext
        ({ w with loggers := w.loggers ++ [⟨h⟩], defaultLogger := w.loggers.length } : World H S)
        (WithContext Context.Background (some w.loggers.length))) = some ⟨h⟩ := by
    rw [FromContext_WithContext]
    simp [slog.Logger.deref]
  have hlog : ∀ level : Level,
      slog.Logger.log impl
        ({ w with loggers := w.loggers ++ [⟨h⟩], defaultLogger := w.loggers.length } : World H S)
        (FromContext
          ({ w with loggers := w.loggers ++ [⟨h⟩], defaultLogger := w.loggers.length } : World H S)
          (WithContext Context.Background (some w.loggers.length)))
        level m (kvs.flatMap fun kv => [GoAny.string kv.1, kv.2])
      = some { ({ w with loggers := w.loggers ++ [⟨h⟩], defaultLogger := w.loggers.length } :
            World H S) with
          handled := w.handled ++ [(h, ⟨level, m,
            ((kvs.filter fun kv => !(AnyValue kv.2).isEmptyGroup).map
              fun kv => slog.Any kv.1 kv.2)⟩)]
          sink := (impl.Handle h ⟨level, m,
            ((kvs.filter fun kv => !(AnyValue kv.2).isEmptyGroup).map
              fun kv => slog.Any kv.1 kv.2)⟩ w.sink).1 } := by
    intro level
    rw [log_enabled impl _ _ ⟨h⟩ level m _ hderef (hen level), Add_pairs]
    simp [NewRecord]
  refine ⟨_, _, _, _, SetLogger_eq w Context.Background h, rfl, rfl, ?_, ?_,
    hlog 0, hlog 4, hlog 8, hlog (-4)⟩
  · intro hall
    have hfilter : (kvs.filter fun kv => !(AnyValue kv.2).isEmptyGroup) = kvs :=
      List.filter_eq_self.mpr (by simpa [List.all_eq_true] using hall)
    rw [hfilter]
    have hlen : ∀ l : List (String × GoAny),
        (l.flatMap fun kv => [GoAny.string kv.1, kv.2]).length = 2 * l.length := by
      intro l
      induction l with
      | nil => simp
      | cons x xs ih => simp [List.flatMap_cons, ih]; omega
    rw [hlen, List.length_map]
    omega
  · intro hargs
    cases kvs with
    | nil => simp
    | cons kv rest => simp [List.flatMap_cons] at hargs

/-- C5 at the sample handler, the message `hello` and the pair `key`, `value`. -/
theorem C5_leveled_calls_witness :
    (∀ level, zap.handlerImpl.Enabled sample.handler level = true) ∧
    ∃ (w1 : World zap.ZapHandler zap.Backend) (ctx : Context) (args : List GoAny)
        (attrs : List Attr),
      SetLogger sample.world Context.Background sample.handler = some (w1, ctx) ∧
      args = (sample.pairs.flatMap fun kv => [GoAny.string kv.1, kv.2]) ∧
      attrs = ((sample.pairs.filter fun kv => !(AnyValue kv.2).isEmptyGroup).map
        fun kv => slog.Any kv.1 kv.2) ∧
      ((sample.pairs.all fun kv => !(AnyValue kv.2).isEmptyGroup) = true →
        attrs.length = args.length / 2) ∧
      (args = [] → attrs.length = 0) ∧
      logger.Info zap.handlerImpl w1 ctx "hello" args = some { w1 with
        handled := w1.handled ++ [(sample.handler, ⟨0, "hello", attrs⟩)]
        sink := (zap.handlerImpl.Handle sample.handler ⟨0, "hello", attrs⟩ w1.sink).1 } ∧
      logger.Warn zap.handlerImpl w1 ctx "hello" args = some { w1 with
        handled := w1.handled ++ [(sample.handler, ⟨4, "hello", attrs⟩)]
        sink := (zap.handlerImpl.Handle sample.handler ⟨4, "hello", attrs⟩ w1.sink).1 } ∧
      logger.Error zap.handlerImpl w1 ctx "hello" args = some { w1 with
        handled := w1.handled ++ [(sample.handler, ⟨8, "hello", attrs⟩)]
        sink := (zap.handlerImpl.Handle sample.handler ⟨8, "hello", attrs⟩ w1.sink).1 } ∧
      logger.Debug zap.handlerImpl w1 ctx "hello" args = some { w1 with
        handled := w1.handled ++ [(sample.handler, ⟨-4, "hello", attrs⟩)]
        sink := (zap.handlerImpl.Handle sample.handler ⟨-4, "hello", attrs⟩ w1.sink).1 } :=
  ⟨sample_handler_enabled,
   C5_leveled_calls zap.handlerImpl sample.world sample.handler "hello" sample.pairs
     sample_handler_enabled⟩

/-- C6, as stated, fails: with the nil `*slog.Logger` bound through `WithContext`, each of
`Info`, `Warn`, `Error`, `Debug` panics (the type assertion in `FromContext` succeeds and the
nil pointer is dereferenced). -/
theorem C6_no_panic_counterexample :
    logger.Info zap.handlerImpl sample.world sample.nilCtx "msg" [] = none ∧
    logger.Warn zap.handlerImpl sample.world sample.nilCtx "msg" [] = none ∧
    logger.Error zap.handlerImpl sample.world sample.nilCtx "msg" [] = none ∧
    logger.Debug zap.handlerImpl sample.world sample.nilCtx "msg" [] = none := by
  refine ⟨?_, ?_, ?_, ?_⟩ <;>
    simp [logger.Info, logger.Warn, logger.Error, logger.Debug, slog.Logger.Info,
      slog.Logger.Warn, slog.Logger.Error, slog.Logger.Debug, slog.Logger.log,
      slog.Logger.deref, sample.nilCtx, FromContext_WithContext]

/-- C6, amended: in every state whose default logger is allocated, for every context,
message and argument list, each of `Info`, `Warn`, `Error`, `Debug` returns (no panic, no
error result) when the logger key of the context holds nothing, a value of another type, or
a non-nil pointer to an allocated `slog.Logger`. -/
theorem C6_no_panic {H S : Type} (impl : HandlerImpl H S) (w : World H S) (ctx : Context)
    (msg : String) (args : List GoAny) (hw : w.WF)
    (hptr : ∀ p, ctx.Value (Key.contextKey loggerKey) = GoAny.loggerPtr p →
      ∃ a, p = some a ∧ a < w.loggers.length) :
    (logger.Info impl w ctx msg args).isSome = true ∧
    (logger.Warn impl w ctx msg args).isSome = true ∧
    (logger.Error impl w ctx msg args).isSome = true ∧
    (logger.Debug impl w ctx msg args).isSome = true := by
  obtain ⟨lg, hlg⟩ := FromContext_allocated w ctx hw hptr
  exact ⟨log_isSome impl w _ lg _ msg args hlg, log_isSome impl w _ lg _ msg args hlg,
    log_isSome impl w _ lg _ msg args hlg, log_isSome impl w _ lg _ msg args hlg⟩

/-- C6 at the sample state and the context binding its logger. -/
theorem C6_no_panic_witness :
    sample.world.WF ∧
    (∀ p, sample.boundCtx.Value (Key.contextKey loggerKey) = GoAny.loggerPtr p →
      ∃ a, p = some a ∧ a < sample.world.loggers.length) ∧
    ((logger.Info zap.handlerImpl sample.world sample.boundCtx "msg" sample.emptyGroupArgs).isSome
        = true ∧
      (logger.Warn zap.handlerImpl sample.world sample.boundCtx "msg" sample.emptyGroupArgs).isSome
        = true ∧
      (logger.Error zap.handlerImpl sample.world sample.boundCtx "msg" sample.emptyGroupArgs).isSome
        = true ∧
      (logger.Debug zap.handlerImpl sample.world sample.boundCtx "msg" sample.emptyGroupArgs).isSome
        = true) :=
  have hw : sample.world.WF := by simp [World.WF, sample.world]
  have hptr : ∀ p, sample.boundCtx.Value (Key.contextKey loggerKey) = GoAny.loggerPtr p →
      ∃ a, p = some a ∧ a < sample.world.loggers.length := by
    intro p hp
    simp [sample.boundCtx, WithContext, context.WithValue, Context.Value] at hp
    exact ⟨0, hp.symm, by simp [sample.world]⟩
  ⟨hw, hptr, C6_no_panic zap.handlerImpl sample.world sample.boundCtx "msg"
    sample.emptyGroupArgs hw hptr⟩

/-! ## Enrichment -/

/-- C7, as stated, fails: with no arguments, `With(ctx)` rebinds the logger of `ctx` itself
(`(*slog.Logger).With` returns its receiver), so the logger of the new context is the same
instance as before, the one at address 0. -/
theorem C7_With_distinct_counterexample :
    FromContext sample.world sample.boundCtx = some 0 ∧
    (logger.With zap.handlerImpl sample.world sample.boundCtx []).map
      (fun p => FromContext p.1 p.2) = some (some 0) := by
  constructor <;>
    simp [logger.With, slog.Logger.With, sample.boundCtx, FromContext_WithContext]

/-- C7, amended: for every context `ctx` with a bound logger `L` and every non-empty
argument list, `With(ctx, args...)` returns a context whose logger is a newly allocated
instance, distinct from `L`, whose handler is `L.handler.WithAttrs(argsToAttrSlice(args))`;
`FromContext(ctx)` still returns `L`, `L` and every other allocated logger are unchanged (so
are the handler and the attributes bound to it), and nothing is logged. -/
theorem C7_With_distinct {H S : Type} (impl : HandlerImpl H S) (w : World H S) (ctx : Context)
    (a : Nat) (L : slog.Logger H) (args : List GoAny)
    (hctx : ctx.Value (Key.contextKey loggerKey) = GoAny.loggerPtr (some a))
    (hL : w.loggers[a]? = some L) (hargs : args ≠ []) :
    ∃ (w1 : World H S) (ctx1 : Context) (a1 : Nat),
      logger.With impl w ctx args = some (w1, ctx1) ∧
      FromContext w1 ctx1 = some a1 ∧ a1 ≠ a ∧
      w1.loggers[a1]? = some ⟨impl.WithAttrs L.handler (argsToAttrSlice args)⟩ ∧
      FromContext w ctx = some a ∧ FromContext w1 ctx = some a ∧
      w1.loggers[a]? = some L ∧
      (∀ (b : Nat) (Lb : slog.Logger H), w.loggers[b]? = some Lb → w1.loggers[b]? = some Lb) ∧
      w1.defaultLogger = w.defaultLogger ∧ w1.handled = w.handled ∧ w1.sink = w.sink := by
  have hfrom : ∀ w0 : World H S, FromContext w0 ctx = some a := by
    intro w0
    simp [FromContext, hctx, GoAny.assertLogger]
  have hlen : args.length ≠ 0 := by
    intro h0
    exact hargs (List.length_eq_zero.mp h0)
  have hlt : a < w.loggers.length := lt_length_of_getElem? _ _ _ hL
  refine ⟨{ w with loggers := w.loggers ++
      [⟨impl.WithAttrs L.handler (argsToAttrSlice args)⟩] },
    WithContext ctx (some w.loggers.length), w.loggers.length, ?_, ?_, ?_, ?_, hfrom w,
    hfrom _, ?_, ?_, rfl, rfl, rfl⟩
  · simp [logger.With, slog.Logger.With, hfrom w, hlen, slog.Logger.deref, hL]
  · exact FromContext_WithContext _ ctx _
  · omega
  · exact getElem?_append_length _ _
  · exact getElem?_append_of_some _ _ _ _ hL
  · intro b Lb hb
    exact getElem?_append_of_some _ _ _ _ hb

/-- C7 at the arguments of `TestWith`: `key1`, `value1`, `key2`, 42. -/
theorem C7_With_distinct_witness :
    sample.boundCtx.Value (Key.contextKey loggerKey) = GoAny.loggerPtr (some 0) ∧
    sample.world.loggers[0]? = some ⟨sample.handler⟩ ∧
    [GoAny.string "key1", GoAny.string "value1", GoAny.string "key2", GoAny.int 42] ≠ [] ∧
    ∃ (w1 : World zap.ZapHandler zap.Backend) (ctx1 : Context) (a1 : Nat),
      logger.With zap.handlerImpl sample.world sample.boundCtx
        [GoAny.string "key1", GoAny.string "value1", GoAny.string "key2", GoAny.int 42]
        = some (w1, ctx1) ∧
      FromContext w1 ctx1 = some a1 ∧ a1 ≠ 0 ∧
      w1.loggers[a1]? = some ⟨zap.handlerImpl.WithAttrs (slog.Logger.mk sample.handler).handler
        (argsToAttrSlice
          [GoAny.string "key1", GoAny.string "value1", GoAny.string "key2", GoAny.int 42])⟩ ∧
      FromContext sample.world sample.boundCtx = some 0 ∧
      FromContext w1 sample.boundCtx = some 0 ∧
      w1.loggers[0]? = some ⟨sample.handler⟩ ∧
      (∀ (b : Nat) (Lb : slog.Logger zap.ZapHandler),
        sample.world.loggers[b]? = some Lb → w1.loggers[b]? = some Lb) ∧
      w1.defaultLogger = sample.world.defaultLogger ∧ w1.handled = sample.world.handled ∧
      w1.sink = sample.world.sink :=
  have hctx : sample.boundCtx.Value (Key.contextKey loggerKey) = GoAny.loggerPtr (some 0) := by
    simp [sample.boundCtx, WithContext, context.WithValue, Context.Value]
  have hL : sample.world.loggers[0]? = some ⟨sample.handler⟩ := by
    simp [sample.world]
  have hargs : [GoAny.string "key1", GoAny.string "value1", GoAny.string "key2", GoAny.int 42]
      ≠ [] := by
    simp
  ⟨hctx, hL, hargs,
    C7_With_distinct zap.handlerImpl sample.world sample.boundCtx 0 ⟨sample.handler⟩ _
      hctx hL hargs⟩

/-- C8, as stated, fails: after `With(With(ctx, "k1", "v1"), "k2", "v2")`, the call
`Debug(ctx2, "msg", "k", []slog.Attr{})` produces one entry that carries the fields `k1` and
`k2` only: the pair `k` is dropped, its value being an empty group. -/
theorem C8_cumulative_fields_counterexample :
    ((logger.With zap.handlerImpl sample.world sample.boundCtx
        [GoAny.string "k1", GoAny.string "v1"]).bind fun p1 =>
      (logger.With zap.handlerImpl p1.1 p1.2 [GoAny.string "k2", GoAny.string "v2"]).bind fun p2 =>
        (logger.Debug zap.handlerImpl p2.1 p2.2 "msg" sample.emptyGroupArgs).map fun w3 =>
          w3.sink.entries.map fun e => e.Context.map fun f => f.Key)
      = some [["k1", "k2"]] := by
  have h0 : FromContext sample.world sample.boundCtx = some 0 := by
    simp [sample.boundCtx, FromContext_WithContext]
  have hL : sample.world.loggers[0]? = some ⟨sample.handler⟩ := by
    simp [sample.world]
  rw [With_zap_pair sample.world sample.boundCtx 0 sample.handler "k1" _ h0 hL]
  simp only [Option.some_bind]
  rw [With_zap_pair _ _ _ _ "k2" _ (FromContext_WithContext _ _ _)
    (getElem?_append_length _ _)]
  simp [logger.Debug, slog.Logger.Debug, slog.Logger.log, slog.Logger.deref,
    FromContext_WithContext, sample.world, sample.emptyGroupArgs, Record.Add, argsToAttr,
    slog.Any, AnyValue, GroupValue, Value.isEmptyGroup, Value.Any, NewRecord, zap.handlerImpl,
    zap.ZapHandler.Enabled, zap.Logger.Core, zapcore.Core.Enabled, sample.handler,
    zap.NewHandler, zap.Logger.WithOptions, zap.AddCallerSkip, sample.zapLogger,
    zap.convertSlogLevel, slog.LevelDebug, slog.LevelInfo, slog.LevelError, slog.LevelWarn,
    zapcore.DebugLevel, zap.ZapHandler.Handle, Record.Attrs, zap.Logger.Debug, zap.Logger.log,
    zap.Any]

/-- C8, amended: for every context `ctx` whose logger wraps a `ZapHandler` `h` with a core
enabled at `DebugLevel`, all string keys `k1`, `k2`, `k` and all values `v1`, `v2`, `v`
with `v` not an empty group: after `ctx2 = With(With(ctx, k1, v1), k2, v2)` the call
`Debug(ctx2, msg, k, v)` makes one backend call and produces one backend entry, at
`DebugLevel`, with message `msg`, whose fields are those already bound to `h`, then `k1`,
`k2` and `k`, each with its value as boxed by `slog.AnyValue`, in that order. -/
theorem C8_cumulative_fields (w : World zap.ZapHandler zap.Backend) (ctx : Context) (a : Nat)
    (h : zap.ZapHandler) (msg k1 k2 k : String) (v1 v2 v : GoAny)
    (hctx : FromContext w ctx = some a) (hL : w.loggers[a]? = some ⟨h⟩)
    (hen : h.logger.core.Enabled zapcore.DebugLevel = true)
    (hv : (AnyValue v).isEmptyGroup = false) :
    ∃ (w1 w2 w3 : World zap.ZapHandler zap.Backend) (ctx1 ctx2 : Context),
      logger.With zap.handlerImpl w ctx [GoAny.string k1, v1] = some (w1, ctx1) ∧
      logger.With zap.handlerImpl w1 ctx1 [GoAny.string k2, v2] = some (w2, ctx2) ∧
      logger.Debug zap.handlerImpl w2 ctx2 msg [GoAny.string k, v] = some w3 ∧
      w3.sink.calls = w.sink.calls ++
        [⟨zapcore.DebugLevel, msg, [zap.Any k (AnyValue v).Any]⟩] ∧
      w3.sink.entries = w.sink.entries ++
        [⟨⟨zapcore.DebugLevel, h.logger.name, msg⟩,
          h.logger.core.context ++
            [zap.Any k1 (AnyValue v1).Any, zap.Any k2 (AnyValue v2).Any,
             zap.Any k (AnyValue v).Any]⟩] := by
  refine ⟨_, _, _, _, _, With_zap_pair w ctx a h k1 v1 hctx hL,
    With_zap_pair _ _ _ _ k2 v2 (FromContext_WithContext _ _ _)
      (getElem?_append_length _ _),
    Debug_zap_pair _ _ _ _ msg k v (FromContext_WithContext _ _ _)
      (getElem?_append_length _ _)
      (by simpa [zapcore.Core.Enabled] using hen) hv, ?_, ?_⟩
  · simp
  · simp

/-- C8 at the pairs `req_id`, `abc` and `n`, 7, then `Debug` with `k`, `v`. -/
theorem C8_cumulative_fields_witness :
    FromContext sample.world sample.boundCtx = some 0 ∧
    sample.world.loggers[0]? = some ⟨sample.handler⟩ ∧
    sample.handler.logger.core.Enabled zapcore.DebugLevel = true ∧
    (AnyValue (GoAny.string "v")).isEmptyGroup = false ∧
    ∃ (w1 w2 w3 : World zap.ZapHandler zap.Backend) (ctx1 ctx2 : Context),
      logger.With zap.handlerImpl sample.world sample.boundCtx
        [GoAny.string "req_id", GoAny.string "abc"] = some (w1, ctx1) ∧
      logger.With zap.handlerImpl w1 ctx1 [GoAny.string "n", GoAny.int 7] = some (w2, ctx2) ∧
      logger.Debug zap.handlerImpl w2 ctx2 "msg" [GoAny.string "k", GoAny.string "v"]
        = some w3 ∧
      w3.sink.calls = sample.world.sink.calls ++
        [⟨zapcore.DebugLevel, "msg", [zap.Any "k" (AnyValue (GoAny.string "v")).Any]⟩] ∧
      w3.sink.entries = sample.world.sink.entries ++
        [⟨⟨zapcore.DebugLevel, sample.handler.logger.name, "msg"⟩,
          sample.handler.logger.core.context ++
            [zap.Any "req_id" (AnyValue (GoAny.string "abc")).Any,
             zap.Any "n" (AnyValue (GoAny.int 7)).Any,
             zap.Any "k" (AnyValue (GoAny.string "v")).Any]⟩] :=
  have h0 : FromContext sample.world sample.boundCtx = some 0 := by
    simp [sample.boundCtx, FromContext_WithContext]
  have hL : sample.world.loggers[0]? = some ⟨sample.handler⟩ := by
    simp [sample.world]
  have hen : sample.handler.logger.core.Enabled zapcore.DebugLevel = true := by
    decide
  have hv : (AnyValue (GoAny.string "v")).isEmptyGroup = false := by
    rfl
  ⟨h0, hL, hen, hv,
    C8_cumulative_fields sample.world sample.boundCtx 0 sample.handler "msg" "req_id" "n" "k"
      (GoAny.string "abc") (GoAny.int 7) (GoAny.string "v") h0 hL hen hv⟩

/-! ## Bootstrap -/

/-- C9: for every handler `h`, every context `ctx` and every state, `SetLogger(ctx, h)`
returns; afterwards the default logger is a newly allocated logger whose handler is `h`,
`FromContext` of the returned context is that same instance, and so is `FromContext` of
every context without a bound logger, `context.Background()` among them. A later
`SetLogger` makes another new logger, wrapping the new handler, the default one, while
`FromContext` of the first returned context is still the first logger, in every state. -/
theorem C9_SetLogger {H S : Type} (w : World H S) (ctx : Context) (h : H) :
    ∃ (w1 : World H S) (ctx1 : Context) (a : Nat),
      SetLogger w ctx h = some (w1, ctx1) ∧
      slog.Default w1 = some a ∧
      w1.loggers[a]? = some ⟨h⟩ ∧
      FromContext w1 ctx1 = some a ∧
      FromContext w1 Context.Background = some a ∧
      (∀ c : Context, (∀ p, c.Value (Key.contextKey loggerKey) ≠ GoAny.loggerPtr p) →
        FromContext w1 c = some a) ∧
      (∀ w0 : World H S, FromContext w0 ctx1 = some a) ∧
      (∀ (c : Context) (h2 : H), ∃ (w2 : World H S) (ctx2 : Context) (a2 : Nat),
        SetLogger w1 c h2 = some (w2, ctx2) ∧
        slog.Default w2 = some a2 ∧ a2 ≠ a ∧
        w2.loggers[a2]? = some ⟨h2⟩ ∧
        w2.loggers[a]? = some ⟨h⟩ ∧
        FromContext w2 ctx2 = some a2 ∧
        FromContext w2 Context.Background = some a2 ∧
        FromContext w2 ctx1 = some a) := by
  refine ⟨_, _, w.loggers.length, SetLogger_eq w ctx h, ?_, ?_, ?_, ?_, ?_, ?_, ?_⟩
  · rfl
  · exact getElem?_append_length _ _
  · exact FromContext_WithContext _ _ _
  · simp [FromContext, Context.Value, GoAny.assertLogger, slog.Default]
  · intro c hc
    rw [FromContext_default _ c hc]
    rfl
  · intro w0
    exact FromContext_WithContext w0 _ _
  · intro c h2
    refine ⟨_, _, (w.loggers ++ [slog.Logger.mk h]).length, SetLogger_eq _ c h2, ?_, ?_, ?_, ?_, ?_, ?_, ?_⟩
    · rfl
    · simp
    · exact getElem?_append_length _ _
    · exact getElem?_append_of_some _ _ _ _ (getElem?_append_length _ _)
    · exact FromContext_WithContext _ _ _
    · simp [FromContext, Context.Value, GoAny.assertLogger, slog.Default]
    · exact FromContext_WithContext _ _ _

/-! ## Attribute translation -/

/-- C10: for every record `r`, `Handle` makes exactly one leveled call on its zap logger and
returns the nil error; the message of the call is `r.Message` and its field list has length
`r.NumAttrs()` and is, in the attribute order of the record, `zap.Any(a.Key, a.Value.Any())`
for each attribute `a`. When the core is enabled at the level of the call, exactly one
entry is written, with that message and the fields bound by `WithAttrs` followed by that
field list; otherwise none is. -/
theorem C10_Handle_fields (h : zap.ZapHandler) (r : Record) (b : zap.Backend) :
    ∃ (lvl : zapcore.Level) (fields : List zap.Field),
      fields = (r.Attrs.map fun a => zap.Any a.Key a.Value.Any) ∧
      fields.length = r.NumAttrs ∧
      (fields.map fun f => f.Key) = (r.Attrs.map fun a => a.Key) ∧
      (fields.map fun f => f.Interface) = (r.Attrs.map fun a => a.Value.Any) ∧
      zap.ZapHandler.Handle h r b =
        (⟨b.calls ++ [⟨lvl, r.Message, fields⟩],
          b.entries ++
            (if h.logger.core.Enabled lvl
             then [⟨⟨lvl, h.logger.name, r.Message⟩, h.logger.core.context ++ fields⟩]
             else [])⟩, none) := by
  refine ⟨(if r.Level = -4 then zapcore.DebugLevel
           else if r.Level = 0 then zapcore.InfoLevel
           else if r.Level = 4 then zapcore.WarnLevel
           else if r.Level = 8 then zapcore.ErrorLevel
           else zapcore.InfoLevel), _, rfl, ?_, ?_, ?_, ?_⟩
  · simp [Record.NumAttrs, Record.Attrs]
  · simp [zap.Any]
  · simp [zap.Any]
  · rw [Handle_eq]
    simp only [zap.Logger.log]
    split_ifs <;> simp

/-! ## Agreement of `Enabled` and `Handle` -/

/-- The method `Handle` writes an entry exactly when the core is enabled at the level of
the leveled call it makes. -/
theorem Handle_accepted_iff (h : zap.ZapHandler) (r : Record) (b : zap.Backend) :
    (zap.ZapHandler.Handle h r b).1.entries.length = b.entries.length + 1 ↔
      h.logger.core.Enabled
        (if r.Level = -4 then zapcore.DebugLevel
         else if r.Level = 0 then zapcore.InfoLevel
         else if r.Level = 4 then zapcore.WarnLevel
         else if r.Level = 8 then zapcore.ErrorLevel
         else zapcore.InfoLevel) = true := by
  rw [Handle_eq]
  simp only [zap.Logger.log]
  split_ifs <;> simp_all

/-- On the levels -4, 0 to 4 and 8, where the switch of `Handle` and `convertSlogLevel` pick
the same backend level, `Enabled` holds exactly when `Handle` writes an entry, whatever the
minimum level of the core. The four levels of the facade are among them. -/
theorem Enabled_iff_accepted (h : zap.ZapHandler) (r : Record) (b : zap.Backend)
    (hl : r.Level = -4 ∨ (0 ≤ r.Level ∧ r.Level ≤ 4) ∨ r.Level = 8) :
    zap.ZapHandler.Enabled h r.Level = true ↔
      (zap.ZapHandler.Handle h r b).1.entries.length = b.entries.length + 1 := by
  rw [Handle_accepted_iff]
  have hlvl : zap.convertSlogLevel r.Level =
      (if r.Level = -4 then zapcore.DebugLevel
       else if r.Level = 0 then zapcore.InfoLevel
       else if r.Level = 4 then zapcore.WarnLevel
       else if r.Level = 8 then zapcore.ErrorLevel
       else zapcore.InfoLevel) := by
    simp only [zap.convertSlogLevel, slog.LevelError, slog.LevelWarn, slog.LevelInfo,
      zapcore.DebugLevel, zapcore.InfoLevel, zapcore.WarnLevel, zapcore.ErrorLevel]
    unfold slog.Level zapcore.Level at *
    split_ifs <;> first | rfl | omega
  simp only [zap.ZapHandler.Enabled, zap.Logger.Core, hlvl]

/-- C11: `Enabled` and `Handle` do not agree. Over a core whose minimum level is
`ErrorLevel`, `Enabled` admits level 100 (`convertSlogLevel(100)` is `ErrorLevel`), yet
`Handle` of a record at level 100 calls `Info` and the core writes no entry. Over a core
whose minimum level is `InfoLevel`, `Enabled` rejects level -1 (`convertSlogLevel(-1)` is
`DebugLevel`), yet `Handle` of a record at level -1 calls `Info` and the entry is written.
Through a logger installed by `SetLogger` over the first core, logging at level 100 hands
one record to `Handle` and no entry reaches the backend. -/
theorem C11_Enabled_Handle_disagree :
    zap.ZapHandler.Enabled sample.errorHandler 100 = true ∧
    (zap.ZapHandler.Handle sample.errorHandler ⟨100, "msg", []⟩ ⟨[], []⟩).1.calls.map
      zap.Call.Level = [zapcore.InfoLevel] ∧
    (zap.ZapHandler.Handle sample.errorHandler ⟨100, "msg", []⟩ ⟨[], []⟩).1.entries.length = 0 ∧
    zap.ZapHandler.Enabled sample.infoHandler (-1) = false ∧
    (zap.ZapHandler.Handle sample.infoHandler ⟨-1, "msg", []⟩ ⟨[], []⟩).1.calls.map
      zap.Call.Level = [zapcore.InfoLevel] ∧
    (zap.ZapHandler.Handle sample.infoHandler ⟨-1, "msg", []⟩ ⟨[], []⟩).1.entries.length = 1 ∧
    ((SetLogger sample.world Context.Background sample.errorHandler).bind fun p =>
        (slog.Logger.log zap.handlerImpl p.1 (FromContext p.1 p.2) 100 "msg" []).map fun w2 =>
          (w2.handled.length, w2.sink.entries.length)) = some (1, 0) := by
  refine ⟨by decide, by decide, by decide, by decide, by decide, by decide, ?_⟩
  have hen : zap.handlerImpl.Enabled (slog.Logger.mk sample.errorHandler).handler 100 = true := by
    decide
  rw [SetLogger_eq]
  simp only [Option.some_bind]
  rw [log_enabled zap.handlerImpl _ _ ⟨sample.errorHandler⟩ 100 "msg" []
    (by rw [FromContext_WithContext]; exact getElem?_append_length _ _) hen]
  have hr : (NewRecord 100 "msg").Add [] = ⟨100, "msg", []⟩ := by
    simp [Record.Add, NewRecord]
  rw [hr]
  have hentries :
      (zap.handlerImpl.Handle sample.errorHandler ⟨100, "msg", []⟩ ⟨[], []⟩).1.entries = [] :=
    List.length_eq_zero.mp (by decide)
  simp [sample.world, hentries]
